import Mathlib

/-!
Verification of the sender-side TCP output engine (congestion control,
RTT estimation, segment tracking, retransmission) against its design
specification.

The definitions below are a shallow embedding of the C translation unit
that implements the engine (`struct tcp_sock`, `struct tcp_segment` and
the `tcp_*` routines).  Machine integers are modelled as `Nat` with an
explicit `% 2 ^ 32` (resp. `% 2 ^ 64`) wherever the C program computes
modulo the word size, and the signed 32-bit arithmetic in the RTT
estimator is modelled on `Int` with an explicit two's-complement
reinterpretation.  The fixed `segments[MAX_SEGMENTS]` array together
with its `num_segments` fill counter is modelled as a list whose length
is `num_segments`; the C code writes each new segment at index
`num_segments`, which the list model renders as an append.  Fields that
the modelled routines never read or write after initialisation
(addresses, ports, the TCP state byte, the unused `sacked`/`tsval`/
`tsecr` segment fields and the payload bytes) are omitted.
-/

set_option maxRecDepth 8192

namespace TcpOutput

/-! ## Constants -/

def TCP_MAX_WINDOW : Nat := 65535
def TCP_MSS : Nat := 1460
def MAX_SEGMENTS : Nat := 32
def MAX_RETRIES : Nat := 5
def RTO_MIN : Nat := 1000
def RTO_MAX : Nat := 120000
def INIT_CWND : Nat := 10
def INIT_SSTHRESH : Nat := 65535
def TCP_ACK_FLAG : Nat := 16

/-- Modulus of an unsigned 32-bit integer. -/
def U32 : Nat := 4294967296

/-- Modulus of an unsigned 64-bit integer. -/
def U64 : Nat := 18446744073709551616

/-- Reinterpret the value of a `uint32_t` as a signed `int32_t`
(two's complement). -/
def toInt32 (n : Nat) : Int :=
  if n % U32 < 2 ^ 31 then (n % U32 : Int) else (n % U32 : Int) - (U32 : Int)

/-! ## Data model -/

/-- One outstanding segment (`struct tcp_segment`).  The payload bytes
and the fields never read by the modelled routines are omitted. -/
structure tcp_segment where
  seq : Nat
  ack : Nat
  window : Nat
  flags : Nat
  mss : Nat
  len : Nat
  retrans : Bool
  retries : Nat
  deriving Repr, DecidableEq

/-- The connection state (`struct tcp_sock`).  `segments` holds the
first `num_segments` entries of the C array, so `num_segments` is the
list length. -/
structure tcp_sock where
  snd_una : Nat
  snd_nxt : Nat
  rcv_nxt : Nat
  rcv_wnd : Nat
  cwnd : Nat
  ssthresh : Nat
  in_recovery : Bool
  recover : Nat
  srtt : Nat
  rttvar : Nat
  rto : Nat
  segments : List tcp_segment
  packets_sent : Nat
  bytes_sent : Nat
  retransmits : Nat
  timeouts : Nat
  deriving Repr, DecidableEq

/-- `tcp_sock_create`: the freshly created connection state. -/
def tcp_sock_create : tcp_sock where
  snd_una := 1000
  snd_nxt := 1000
  rcv_nxt := 2000
  rcv_wnd := TCP_MAX_WINDOW
  cwnd := INIT_CWND * TCP_MSS
  ssthresh := INIT_SSTHRESH
  in_recovery := false
  recover := 0
  srtt := 100
  rttvar := 50
  rto := RTO_MIN
  segments := []
  packets_sent := 0
  bytes_sent := 0
  retransmits := 0
  timeouts := 0

/-! ## Operations -/

/-- `tcp_transmit_skb`: counts the transmission (the printf side effect
is outside the model).  Counters are `uint64_t`. -/
def tcp_transmit_skb (sk : tcp_sock) (seg : tcp_segment) : tcp_sock :=
  { sk with
      packets_sent := (sk.packets_sent + 1) % U64
      bytes_sent := (sk.bytes_sent + seg.len) % U64
      retransmits :=
        if seg.retrans then (sk.retransmits + 1) % U64 else sk.retransmits }

/-- The RTO update performed after a retransmission:
`sk->rto = (sk->rto * 2 < RTO_MAX) ? sk->rto * 2 : RTO_MAX`, with the
doubling computed in `uint32_t`. -/
def backoffRto (r : Nat) : Nat :=
  if r * 2 % U32 < RTO_MAX then r * 2 % U32 else RTO_MAX

/-- `tcp_retransmit_skb`: refuses once `retries >= MAX_RETRIES`;
otherwise marks the segment, retransmits it and doubles the RTO. -/
def tcp_retransmit_skb (sk : tcp_sock) (seg : tcp_segment) :
    tcp_sock × tcp_segment :=
  if MAX_RETRIES ≤ seg.retries then (sk, seg)
  else
    let seg' := { seg with retrans := true, retries := seg.retries + 1 }
    let sk' := tcp_transmit_skb sk seg'
    ({ sk' with rto := backoffRto sk'.rto }, seg')

/-- The segment-construction loop of `tcp_write_xmit`:
`for (i = 0; i < MAX_SEGMENTS && cwnd_avail >= mss; i++)`, writing each
new segment at index `num_segments`.  `fuel` is the number of loop
iterations still allowed by the `i < MAX_SEGMENTS` test. -/
def writeLoop : Nat → Nat → tcp_sock → tcp_sock
  | 0, _, sk => sk
  | fuel + 1, avail, sk =>
    if TCP_MSS ≤ avail then
      let seg : tcp_segment :=
        { seq := sk.snd_nxt
          ack := sk.rcv_nxt
          window := sk.rcv_wnd % 65536
          flags := TCP_ACK_FLAG
          mss := TCP_MSS
          len := TCP_MSS
          retrans := false
          retries := 0 }
      let sk1 := { sk with snd_nxt := (sk.snd_nxt + seg.len) % U32 }
      let sk2 := tcp_transmit_skb sk1 seg
      let sk3 := { sk2 with segments := sk2.segments ++ [seg] }
      writeLoop fuel (avail - seg.len) sk3
    else sk

/-- `tcp_write_xmit`: emits up to `MAX_SEGMENTS` new `MSS`-sized
segments while `cwnd_avail >= mss`. -/
def tcp_write_xmit (sk : tcp_sock) : tcp_sock :=
  writeLoop MAX_SEGMENTS sk.cwnd sk

/-- `tcp_enter_recovery`. -/
def tcp_enter_recovery (sk : tcp_sock) : tcp_sock :=
  { sk with in_recovery := true, recover := sk.snd_nxt }

/-- `tcp_leave_recovery`. -/
def tcp_leave_recovery (sk : tcp_sock) : tcp_sock :=
  { sk with in_recovery := false }

/-- The retransmission loop of `tcp_retransmit_timer`: every tracked
segment with `seq < snd_una` is passed to `tcp_retransmit_skb`. -/
def timerLoop : tcp_sock → List tcp_segment → tcp_sock × List tcp_segment
  | sk, [] => (sk, [])
  | sk, seg :: rest =>
    let p := if seg.seq < sk.snd_una then tcp_retransmit_skb sk seg
             else (sk, seg)
    let q := timerLoop p.1 rest
    (q.1, p.2 :: q.2)

/-- `tcp_retransmit_timer`: enters recovery if necessary, walks the
segment array retransmitting the eligible segments, and counts the
timeout. -/
def tcp_retransmit_timer (sk : tcp_sock) : tcp_sock :=
  let sk1 := if sk.in_recovery then sk else tcp_enter_recovery sk
  let q := timerLoop sk1 sk1.segments
  { q.1 with segments := q.2, timeouts := (q.1.timeouts + 1) % U64 }

/-- `tcp_cwnd_event`: the congestion-control reaction to a duplicate
ACK (`event = 0`), a timeout (`event = 1`) or a new ACK (`event = 2`).
`TCP_MSS * TCP_MSS / cwnd` is the C unsigned division. -/
def tcp_cwnd_event (sk : tcp_sock) (event : Nat) : tcp_sock :=
  if event = 0 then
    if sk.in_recovery then sk
    else
      let ss := sk.cwnd / 2
      tcp_enter_recovery
        { sk with ssthresh := ss, cwnd := (ss + 3 * TCP_MSS) % U32 }
  else if event = 1 then
    { sk with ssthresh := sk.cwnd / 2, cwnd := TCP_MSS }
  else if event = 2 then
    if sk.cwnd < sk.ssthresh then
      { sk with cwnd := (sk.cwnd + TCP_MSS) % U32 }
    else
      { sk with cwnd := (sk.cwnd + TCP_MSS * TCP_MSS / sk.cwnd) % U32 }
  else sk

/-- The removal loop of `tcp_clean_rtx_queue`: drops every segment with
`seg->seq + seg->len <= ack`, the sum being computed in `uint32_t`. -/
def cleanSegs (ack : Nat) : List tcp_segment → List tcp_segment
  | [] => []
  | seg :: rest =>
    if (seg.seq + seg.len) % U32 ≤ ack then cleanSegs ack rest
    else seg :: cleanSegs ack rest

/-- `tcp_clean_rtx_queue`. -/
def tcp_clean_rtx_queue (sk : tcp_sock) (ack : Nat) : tcp_sock :=
  { sk with segments := cleanSegs ack sk.segments }

/-- `tcp_update_rtt`: the Jacobson/Karels estimator exactly as the C
computes it.  `err` is the `int32_t` difference; the `srtt` update uses
the arithmetic shift `err >> 3`; the `rttvar` update subtracts the
`uint32_t` variable `rttvar` from the `int` value `abs(err)`, which C
performs in `uint32_t` and then shifts logically. -/
def tcp_update_rtt (sk : tcp_sock) (rtt : Nat) : tcp_sock :=
  let err : Int := toInt32 ((rtt + U32 - sk.srtt % U32) % U32)
  let srtt' : Nat := (((sk.srtt : Int) + Int.fdiv err 8).emod (U32 : Int)).toNat
  let dvar : Nat := (((err.natAbs : Int) - (sk.rttvar : Int)).emod (U32 : Int)).toNat
  let rttvar' : Nat := (sk.rttvar + dvar / 4) % U32
  let rto0 : Nat := (srtt' + rttvar' * 4 % U32) % U32
  let rto1 : Nat := if rto0 < RTO_MIN then RTO_MIN else rto0
  let rto2 : Nat := if RTO_MAX < rto1 then RTO_MAX else rto1
  { sk with srtt := srtt', rttvar := rttvar', rto := rto2 }

/-- `tcp_ack_received`: the ACK entry point.  The advertised window is
a `uint16_t` parameter; the hard-coded RTT sample is 100 ms.  Nothing
happens unless `ack > snd_una`. -/
def tcp_ack_received (sk : tcp_sock) (ack : Nat) (window : Nat) : tcp_sock :=
  if sk.snd_una < ack then
    let sk1 := { sk with rcv_wnd := window % 65536 }
    let sk2 := if sk1.in_recovery then sk1 else tcp_update_rtt sk1 100
    let sk3 := tcp_clean_rtx_queue sk2 ack
    let sk4 := tcp_cwnd_event sk3 2
    let sk5 := if sk4.in_recovery ∧ sk4.recover ≤ ack then
                 tcp_leave_recovery sk4
               else sk4
    { sk5 with snd_una := ack }
  else sk

/-! ## Executions of the engine -/

/-- One externally driven event: ACK delivery, RTO expiry, or a
transmit-scheduler invocation. -/
inductive Op where
  | ack (a w : Nat)
  | timeout
  | xmit
  deriving Repr, DecidableEq

/-- Apply one event to the connection state. -/
def step (sk : tcp_sock) : Op → tcp_sock
  | Op.ack a w => tcp_ack_received sk a w
  | Op.timeout => tcp_retransmit_timer sk
  | Op.xmit => tcp_write_xmit sk

/-- Run a sequence of events from a given state. -/
def runFrom (sk : tcp_sock) (ops : List Op) : tcp_sock :=
  ops.foldl step sk

/-- Run a sequence of events from the freshly created connection. -/
def run (ops : List Op) : tcp_sock :=
  runFrom tcp_sock_create ops

/-- Validity of one event in a given state: an ACK number fits in
`uint32_t` and does not exceed `snd_nxt`, and a transmit-scheduler call
cannot overflow the 32-bit `snd_nxt` (it adds at most
`MAX_SEGMENTS * TCP_MSS` bytes). -/
def okOp (sk : tcp_sock) : Op → Bool
  | Op.ack a _ => decide (a ≤ sk.snd_nxt) && decide (a < U32)
  | Op.timeout => true
  | Op.xmit => decide (sk.snd_nxt + MAX_SEGMENTS * TCP_MSS < U32)

/-- Validity of a whole event sequence from a given state. -/
def validFrom (sk : tcp_sock) : List Op → Bool
  | [] => true
  | op :: rest => okOp sk op && validFrom (step sk op) rest

/-- The RTT update exactly as the specification words it (Jacobson /
Karels with truncation toward negative infinity on both error terms and
a final clamp of `srtt + 4 * rttvar` into `[RTO_MIN, RTO_MAX]`), stated
on `Int`; used only to compare the code's numeric semantics against the
specification's. -/
def rtt_sample_spec (srtt rttvar m : Int) : Int × Int × Int :=
  let srtt' := srtt + Int.fdiv (m - srtt) 8
  let rttvar' := rttvar + Int.fdiv (((m - srtt).natAbs : Int) - rttvar) 4
  let x := srtt' + 4 * rttvar'
  let rto' := if x < (RTO_MIN : Int) then (RTO_MIN : Int)
              else if (RTO_MAX : Int) < x then (RTO_MAX : Int) else x
  (srtt', rttvar', rto')

/-! ## Basic lemmas about the operations -/

/-- An ACK that does not exceed `snd_una` is rejected before any state
is touched. -/
lemma ack_received_of_not_gt (sk : tcp_sock) (a w : Nat)
    (h : ¬ sk.snd_una < a) : tcp_ack_received sk a w = sk := by
  simp [tcp_ack_received, h]

/-- Membership in the cleaned queue: survivors come from the original
queue and are not covered by the ACK. -/
lemma mem_cleanSegs {a : Nat} {l : List tcp_segment} {g : tcp_segment}
    (h : g ∈ cleanSegs a l) :
    g ∈ l ∧ ¬ (g.seq + g.len) % U32 ≤ a := by
  induction l with
  | nil => simp [cleanSegs] at h
  | cons s rest ih =>
    by_cases hc : (s.seq + s.len) % U32 ≤ a
    · simp only [cleanSegs, if_pos hc] at h
      rcases ih h with ⟨h1, h2⟩
      exact ⟨List.mem_cons_of_mem _ h1, h2⟩
    · simp only [cleanSegs, if_neg hc] at h
      rcases List.mem_cons.mp h with rfl | hm
      · exact ⟨List.mem_cons_self _ _, hc⟩
      · rcases ih hm with ⟨h1, h2⟩
        exact ⟨List.mem_cons_of_mem _ h1, h2⟩

/-- When no segment's `seq + len` wraps, the cleaning loop is exactly a
filter on `seq + len <= ack`. -/
lemma cleanSegs_eq_filter (a : Nat) (l : List tcp_segment)
    (h : ∀ g ∈ l, g.seq + g.len < U32) :
    cleanSegs a l = l.filter (fun g => ! decide (g.seq + g.len ≤ a)) := by
  induction l with
  | nil => simp [cleanSegs]
  | cons s rest ih =>
    have hs : (s.seq + s.len) % U32 = s.seq + s.len :=
      Nat.mod_eq_of_lt (h s (List.mem_cons_self _ _))
    have ih' := ih (fun g hg => h g (List.mem_cons_of_mem _ hg))
    by_cases hc : s.seq + s.len ≤ a
    · simp [cleanSegs, hs, hc, ih']
    · simp [cleanSegs, hs, hc, ih']

end TcpOutput

namespace TcpOutput

/-- Shared form of the retry-limit guard of `tcp_retransmit_skb`. -/
lemma retransmit_skb_limit_eq (sk : tcp_sock) (seg : tcp_segment)
    (h : MAX_RETRIES ≤ seg.retries) :
    tcp_retransmit_skb sk seg = (sk, seg) := by
  simp [tcp_retransmit_skb, h]

/-- Fields of the socket that `tcp_retransmit_skb` never writes. -/
lemma retransmit_skb_fst_frame (sk : tcp_sock) (seg : tcp_segment) :
    (tcp_retransmit_skb sk seg).1.snd_una = sk.snd_una ∧
    (tcp_retransmit_skb sk seg).1.snd_nxt = sk.snd_nxt ∧
    (tcp_retransmit_skb sk seg).1.cwnd = sk.cwnd ∧
    (tcp_retransmit_skb sk seg).1.ssthresh = sk.ssthresh ∧
    (tcp_retransmit_skb sk seg).1.in_recovery = sk.in_recovery ∧
    (tcp_retransmit_skb sk seg).1.recover = sk.recover ∧
    (tcp_retransmit_skb sk seg).1.segments = sk.segments := by
  unfold tcp_retransmit_skb
  split <;> simp [tcp_transmit_skb]

/-- Below the retry limit, `tcp_retransmit_skb` applies exactly one RTO
backoff. -/
lemma retransmit_skb_fst_rto (sk : tcp_sock) (seg : tcp_segment)
    (h : seg.retries < MAX_RETRIES) :
    (tcp_retransmit_skb sk seg).1.rto = backoffRto sk.rto := by
  simp [tcp_retransmit_skb, Nat.not_le.mpr h, tcp_transmit_skb]

/-- Fields of the socket that the timer's retransmission loop never
writes. -/
lemma timerLoop_fst_frame (sk : tcp_sock) (l : List tcp_segment) :
    (timerLoop sk l).1.snd_una = sk.snd_una ∧
    (timerLoop sk l).1.snd_nxt = sk.snd_nxt ∧
    (timerLoop sk l).1.cwnd = sk.cwnd ∧
    (timerLoop sk l).1.ssthresh = sk.ssthresh ∧
    (timerLoop sk l).1.in_recovery = sk.in_recovery ∧
    (timerLoop sk l).1.recover = sk.recover := by
  induction l generalizing sk with
  | nil => simp [timerLoop]
  | cons g rest ih =>
    simp only [timerLoop]
    by_cases hg : g.seq < sk.snd_una
    · rcases retransmit_skb_fst_frame sk g with ⟨h1, h2, h3, h4, h5, h6, _⟩
      rcases ih (tcp_retransmit_skb sk g).1 with ⟨i1, i2, i3, i4, i5, i6⟩
      simp [hg, i1, i2, i3, i4, i5, i6, h1, h2, h3, h4, h5, h6]
    · rcases ih sk with ⟨i1, i2, i3, i4, i5, i6⟩
      simp [hg, i1, i2, i3, i4, i5, i6]

/-- The timer's loop applies the RTO backoff once per eligible segment
(those with `seq < snd_una` and `retries < MAX_RETRIES`). -/
lemma timerLoop_fst_rto (sk : tcp_sock) (l : List tcp_segment) :
    (timerLoop sk l).1.rto =
      backoffRto^[(l.filter (fun g =>
        decide (g.seq < sk.snd_una) && decide (g.retries < MAX_RETRIES))).length]
        sk.rto := by
  induction l generalizing sk with
  | nil => simp [timerLoop]
  | cons g rest ih =>
    simp only [timerLoop, List.filter_cons]
    by_cases hg : g.seq < sk.snd_una
    · by_cases hr : g.retries < MAX_RETRIES
      · have huna := (retransmit_skb_fst_frame sk g).1
        have hrto := retransmit_skb_fst_rto sk g hr
        have := ih (tcp_retransmit_skb sk g).1
        simp only [huna, hrto] at this
        simp [hg, hr, this, Function.iterate_succ_apply]
      · rw [retransmit_skb_limit_eq sk g (Nat.le_of_not_lt hr)]
        simp [hg, hr, ih sk]
    · simp [hg, ih sk]

/-- Fields of the socket that the transmit scheduler's loop never
writes. -/
lemma writeLoop_frame (n : Nat) (avail : Nat) (sk : tcp_sock) :
    (writeLoop n avail sk).snd_una = sk.snd_una ∧
    (writeLoop n avail sk).cwnd = sk.cwnd ∧
    (writeLoop n avail sk).ssthresh = sk.ssthresh ∧
    (writeLoop n avail sk).in_recovery = sk.in_recovery ∧
    (writeLoop n avail sk).recover = sk.recover ∧
    (writeLoop n avail sk).rto = sk.rto := by
  induction n generalizing avail sk with
  | zero => simp [writeLoop]
  | succ m ih =>
    simp only [writeLoop]
    by_cases ha : TCP_MSS ≤ avail
    · rw [if_pos ha]
      rcases ih (avail - TCP_MSS)
        { sk with
            snd_nxt := (sk.snd_nxt + TCP_MSS) % U32
            packets_sent := (sk.packets_sent + 1) % U64
            bytes_sent := (sk.bytes_sent + TCP_MSS) % U64
            segments := sk.segments ++
              [{ seq := sk.snd_nxt, ack := sk.rcv_nxt,
                 window := sk.rcv_wnd % 65536, flags := TCP_ACK_FLAG,
                 mss := TCP_MSS, len := TCP_MSS,
                 retrans := false, retries := 0 }] } with ⟨i1, i2, i3, i4, i5, i6⟩
      simp only [tcp_transmit_skb]
      simp_all
    · simp [ha]

/-- The new-ACK congestion event only rewrites `cwnd`. -/
lemma cwnd_event2_frame (sk : tcp_sock) :
    (tcp_cwnd_event sk 2).snd_una = sk.snd_una ∧
    (tcp_cwnd_event sk 2).snd_nxt = sk.snd_nxt ∧
    (tcp_cwnd_event sk 2).segments = sk.segments ∧
    (tcp_cwnd_event sk 2).in_recovery = sk.in_recovery ∧
    (tcp_cwnd_event sk 2).recover = sk.recover ∧
    (tcp_cwnd_event sk 2).rto = sk.rto ∧
    (tcp_cwnd_event sk 2).ssthresh = sk.ssthresh := by
  simp only [tcp_cwnd_event]
  norm_num
  split <;> simp

/-- Socket fields that `tcp_update_rtt` never writes, and the RTO clamp
band. -/
lemma update_rtt_frame (sk : tcp_sock) (r : Nat) :
    (tcp_update_rtt sk r).snd_una = sk.snd_una ∧
    (tcp_update_rtt sk r).snd_nxt = sk.snd_nxt ∧
    (tcp_update_rtt sk r).segments = sk.segments ∧
    (tcp_update_rtt sk r).in_recovery = sk.in_recovery ∧
    (tcp_update_rtt sk r).recover = sk.recover ∧
    (tcp_update_rtt sk r).cwnd = sk.cwnd ∧
    (tcp_update_rtt sk r).ssthresh = sk.ssthresh ∧
    RTO_MIN ≤ (tcp_update_rtt sk r).rto ∧
    (tcp_update_rtt sk r).rto ≤ RTO_MAX := by
  simp only [tcp_update_rtt]
  refine ⟨trivial, trivial, trivial, trivial, trivial, trivial, trivial, ?_, ?_⟩ <;>
    · simp only [RTO_MIN, RTO_MAX]
      split_ifs <;> omega

/-- The backoff keeps the RTO inside `[RTO_MIN, RTO_MAX]`. -/
lemma backoffRto_band (r : Nat) (h1 : RTO_MIN ≤ r) (h2 : r ≤ RTO_MAX) :
    RTO_MIN ≤ backoffRto r ∧ backoffRto r ≤ RTO_MAX := by
  have hlt : r * 2 % U32 = r * 2 := by
    apply Nat.mod_eq_of_lt
    simp only [RTO_MAX] at h2
    simp only [U32]
    omega
  simp only [backoffRto, hlt, RTO_MIN, RTO_MAX] at *
  split_ifs <;> omega

/-- Iterated backoffs keep the RTO inside `[RTO_MIN, RTO_MAX]`. -/
lemma backoffRto_iter_band (k : Nat) (r : Nat) (h1 : RTO_MIN ≤ r)
    (h2 : r ≤ RTO_MAX) :
    RTO_MIN ≤ backoffRto^[k] r ∧ backoffRto^[k] r ≤ RTO_MAX := by
  induction k generalizing r with
  | zero => simpa using ⟨h1, h2⟩
  | succ m ih =>
    rw [Function.iterate_succ_apply]
    rcases backoffRto_band r h1 h2 with ⟨b1, b2⟩
    exact ih (backoffRto r) b1 b2

/-! ## C10: the retry-limited retransmit is a complete no-op -/

/-- C10 (confirmed): for every socket state and every segment whose
retries count has reached `MAX_RETRIES`, `tcp_retransmit_skb` changes
nothing at all: the returned socket (rto, `packets_sent`, `bytes_sent`,
`retransmits` included) and segment (retrans flag, retries) are exactly
the inputs. -/
theorem retransmit_skb_at_retry_limit_noop (sk : tcp_sock)
    (seg : tcp_segment) (h : MAX_RETRIES ≤ seg.retries) :
    tcp_retransmit_skb sk seg = (sk, seg) := by
  simp [tcp_retransmit_skb, h]

/-- Witness for C10 at a concrete socket and a concrete segment with
five retries. -/
theorem retransmit_skb_at_retry_limit_noop_witness :
    MAX_RETRIES ≤ (tcp_segment.mk 0 0 0 16 1460 1460 true 5).retries ∧
    tcp_retransmit_skb tcp_sock_create
        (tcp_segment.mk 0 0 0 16 1460 1460 true 5) =
      (tcp_sock_create, tcp_segment.mk 0 0 0 16 1460 1460 true 5) :=
  ⟨by decide,
   retransmit_skb_at_retry_limit_noop tcp_sock_create _ (by decide)⟩

/-! ## C2: which ACK numbers are ignored -/

/-- C2 counterexample: an ACK strictly above `snd_nxt` is outside
`[snd_una, snd_nxt]`, yet `tcp_ack_received` applies it — `snd_una`
moves.  The claim that every out-of-interval ACK leaves the state
unchanged is therefore false. -/
theorem ack_above_snd_nxt_is_processed :
    tcp_sock_create.snd_nxt < 1001 ∧
    (tcp_ack_received tcp_sock_create 1001 65535).snd_una ≠
      tcp_sock_create.snd_una := by
  decide

/-- C2 (amended): only the lower rejection is implemented — every ACK
number at most `snd_una` leaves the entire connection state (sequence
fields, congestion fields, RTT fields, recovery flag, advertised
window, segment store, counters) exactly unchanged. -/
theorem ack_at_most_snd_una_ignored (sk : tcp_sock) (a w : Nat)
    (h : a ≤ sk.snd_una) : tcp_ack_received sk a w = sk :=
  ack_received_of_not_gt sk a w (by omega)

/-- Witness for the amended C2 at a concrete state and ACK number. -/
theorem ack_at_most_snd_una_ignored_witness :
    1000 ≤ tcp_sock_create.snd_una ∧
    tcp_ack_received tcp_sock_create 1000 12345 = tcp_sock_create :=
  ⟨by decide, ack_at_most_snd_una_ignored tcp_sock_create 1000 12345 (by decide)⟩

/-! ## C9: pruning removes exactly the covered segments -/

/-- C9 (confirmed): provided no tracked segment's `seq + len` wraps a
`uint32_t` (true of every segment the engine constructs below 4 GiB of
sequence space), `tcp_clean_rtx_queue` removes exactly the segments
with `seq + len <= ack`, keeping every other segment unchanged and in
order; and if the ACK covers every tracked segment the store is left
empty. -/
theorem clean_rtx_queue_prunes_exactly (sk : tcp_sock) (a : Nat)
    (h : ∀ g ∈ sk.segments, g.seq + g.len < U32) :
    (tcp_clean_rtx_queue sk a).segments =
      sk.segments.filter (fun g => ! decide (g.seq + g.len ≤ a)) ∧
    ((∀ g ∈ sk.segments, g.seq + g.len ≤ a) →
      (tcp_clean_rtx_queue sk a).segments = []) := by
  constructor
  · simp [tcp_clean_rtx_queue, cleanSegs_eq_filter a sk.segments h]
  · intro hall
    simp only [tcp_clean_rtx_queue, cleanSegs_eq_filter a sk.segments h]
    simp only [List.filter_eq_nil_iff]
    intro g hg
    simp [hall g hg]

/-- Witness for C9: pruning the ten freshly written segments with an
ACK covering them all empties the store. -/
theorem clean_rtx_queue_prunes_exactly_witness :
    (∀ g ∈ (run [Op.xmit]).segments, g.seq + g.len < U32) ∧
    ((tcp_clean_rtx_queue (run [Op.xmit]) 20000).segments =
      (run [Op.xmit]).segments.filter
        (fun g => ! decide (g.seq + g.len ≤ 20000)) ∧
    ((∀ g ∈ (run [Op.xmit]).segments, g.seq + g.len ≤ 20000) →
      (tcp_clean_rtx_queue (run [Op.xmit]) 20000).segments = [])) :=
  ⟨by decide, clean_rtx_queue_prunes_exactly (run [Op.xmit]) 20000 (by decide)⟩

/-! ## C7: the RTT estimator's numeric semantics -/

/-- C7 (code bug): at the engine's own initial state and its own
hard-coded 100 ms sample (`srtt = 100`, `rttvar = 50`, `m = 100`), the
specified update `rttvar + (|m - srtt| - rttvar) / 4` (truncating
toward negative infinity, as the code's own comment
`rttvar = 3/4 rttvar + 1/4 |err|` also demands) yields 37, but the code
computes `(abs(err) - rttvar)` in unsigned 32-bit arithmetic and shifts
it logically, producing 1073741861. -/
theorem update_rtt_rttvar_diverges_from_spec :
    (tcp_update_rtt tcp_sock_create 100).srtt = 100 ∧
    (tcp_update_rtt tcp_sock_create 100).rttvar = 1073741861 ∧
    (rtt_sample_spec 100 50 100).2.1 = 37 ∧
    (tcp_update_rtt tcp_sock_create 100).rttvar ≠ 37 := by
  decide

/-! ## C1: what the retransmission timer actually retransmits -/

/-- C1 (code bug): on a state holding ten freshly transmitted,
never-acknowledged segments — all with `retries < MAX_RETRIES` — the
retransmission timer retransmits none of them: every tracked segment is
returned bit-for-bit unchanged and the retransmission counter stays 0,
because the loop's guard `seg->seq < sk->snd_una` is the opposite of
its own `Retransmit unacked segments` comment (outstanding segments
satisfy `seq >= snd_una`). -/
theorem retransmit_timer_skips_outstanding_segments :
    (run [Op.xmit]).segments.length = 10 ∧
    ((run [Op.xmit]).segments.all
      (fun g => g.retries == 0 && ! g.retrans)) = true ∧
    (tcp_retransmit_timer (run [Op.xmit])).segments =
      (run [Op.xmit]).segments ∧
    (tcp_retransmit_timer (run [Op.xmit])).retransmits = 0 := by
  decide

/-! ## C5: the segment store has no capacity check -/

/-- C5 (code bug): four transmit-scheduler calls without an intervening
ACK (each creating ten segments from the initial 14600-byte cwnd) drive
the tracked-segment count to 40, past the fixed `MAX_SEGMENTS = 32`
capacity: the fourth call writes `segments[32]` through `segments[39]`,
outside the array, instead of failing with `CapacityExceeded`. -/
theorem write_xmit_overflows_segment_store :
    (run [Op.xmit, Op.xmit, Op.xmit, Op.xmit]).segments.length = 40 ∧
    MAX_SEGMENTS <
      (run [Op.xmit, Op.xmit, Op.xmit, Op.xmit]).segments.length := by
  decide

/-! ## C4: RTO backoff under the retransmission timer -/

/-- Socket fields the retransmission timer leaves alone, and the
recovery entry it performs. -/
lemma retransmit_timer_frame (sk : tcp_sock) :
    (tcp_retransmit_timer sk).snd_una = sk.snd_una ∧
    (tcp_retransmit_timer sk).snd_nxt = sk.snd_nxt ∧
    (tcp_retransmit_timer sk).cwnd = sk.cwnd ∧
    (tcp_retransmit_timer sk).ssthresh = sk.ssthresh ∧
    (tcp_retransmit_timer sk).in_recovery = true ∧
    (tcp_retransmit_timer sk).recover =
      (if sk.in_recovery then sk.recover else sk.snd_nxt) := by
  by_cases h : sk.in_recovery
  · obtain ⟨f1, f2, f3, f4, f5, f6⟩ := timerLoop_fst_frame sk sk.segments
    simp [tcp_retransmit_timer, h, f1, f2, f3, f4, f5, f6]
  · obtain ⟨f1, f2, f3, f4, f5, f6⟩ :=
      timerLoop_fst_frame (tcp_enter_recovery sk) (tcp_enter_recovery sk).segments
    simp only [tcp_enter_recovery] at f1 f2 f3 f4 f5 f6
    simp [tcp_retransmit_timer, h, tcp_enter_recovery, f1, f2, f3, f4, f5, f6]

/-- C4 counterexample: on a state holding ten tracked segments, all
with retry budget left, a timeout call leaves `rto` at 1000 instead of
setting it to `min(rto * 2, RTO_MAX) = 2000` — no segment satisfies the
loop's `seq < snd_una` test, so no backoff is applied at all. -/
theorem retransmit_timer_fresh_rto_unchanged :
    (run [Op.xmit]).segments.length = 10 ∧
    ((run [Op.xmit]).segments.all (fun g => g.retries == 0)) = true ∧
    (run [Op.xmit]).rto = 1000 ∧
    (tcp_retransmit_timer (run [Op.xmit])).rto = 1000 ∧
    (tcp_retransmit_timer (run [Op.xmit])).rto ≠ 2000 := by
  decide

/-- C4 (amended): each timeout call applies `rto <- min(rto * 2,
RTO_MAX)` once per segment it retransmits — those with
`seq < snd_una` and `retries < MAX_RETRIES` — rather than once per
call; and concretely, from `rto = 1000` with two such segments, eight
consecutive timeouts end with `rto = RTO_MAX = 120000`. -/
theorem retransmit_timer_backoff_per_segment :
    (∀ sk : tcp_sock, (tcp_retransmit_timer sk).rto =
      backoffRto^[(sk.segments.filter (fun g =>
        decide (g.seq < sk.snd_una) &&
        decide (g.retries < MAX_RETRIES))).length] sk.rto) ∧
    (tcp_retransmit_timer^[8]
      ⟨5000, 5000, 2000, 65535, 14600, 65535, false, 0, 100, 50, 1000,
       [⟨0, 0, 0, 16, 1460, 1460, false, 0⟩,
        ⟨1460, 0, 0, 16, 1460, 1460, false, 0⟩], 0, 0, 0, 0⟩).rto =
      RTO_MAX := by
  constructor
  · intro sk
    by_cases h : sk.in_recovery <;>
      simp [tcp_retransmit_timer, h, tcp_enter_recovery, timerLoop_fst_rto]
  · decide

/-! ## C8: flooring of cwnd and ssthresh -/

/-- C8 counterexample: a first timeout event legitimately leaves
`cwnd = MSS` and `ssthresh = 7300`, but a second timeout event halves
`cwnd = MSS` into `ssthresh = 730 < MSS`: nothing floors `ssthresh` at
one MSS. -/
theorem cwnd_event_ssthresh_below_mss :
    (tcp_cwnd_event tcp_sock_create 1).cwnd = TCP_MSS ∧
    TCP_MSS ≤ (tcp_cwnd_event tcp_sock_create 1).cwnd ∧
    (tcp_cwnd_event (tcp_cwnd_event tcp_sock_create 1) 1).ssthresh = 730 ∧
    (tcp_cwnd_event (tcp_cwnd_event tcp_sock_create 1) 1).ssthresh <
      TCP_MSS := by
  decide

/-- The congestion-window bounds that actually persist along engine
executions: `cwnd` stays between one MSS and `MSS^2 + 32`, and
`ssthresh` keeps its initial value (no engine path ever invokes the
duplicate-ACK or timeout congestion events). -/
def CwndInv (sk : tcp_sock) : Prop :=
  TCP_MSS ≤ sk.cwnd ∧ sk.cwnd ≤ 2131632 ∧ sk.ssthresh = INIT_SSTHRESH

/-- Any congestion event preserves the one-MSS floor of `cwnd`,
given only that `cwnd` starts in its engine-invariant range. -/
lemma cwnd_event_cwnd_floor (sk : tcp_sock) (e : Nat)
    (h1 : TCP_MSS ≤ sk.cwnd) (h2 : sk.cwnd ≤ 2131632) :
    TCP_MSS ≤ (tcp_cwnd_event sk e).cwnd := by
  simp only [tcp_cwnd_event]
  by_cases he0 : e = 0
  · rw [if_pos he0]
    by_cases hr : sk.in_recovery
    · rw [if_pos hr]; exact h1
    · rw [if_neg hr]
      show TCP_MSS ≤ (sk.cwnd / 2 + 3 * TCP_MSS) % U32
      have hd : sk.cwnd / 2 ≤ 2131632 := le_trans (Nat.div_le_self _ _) h2
      rw [Nat.mod_eq_of_lt (by simp only [TCP_MSS, U32]; omega)]
      simp only [TCP_MSS]
      omega
  · rw [if_neg he0]
    by_cases he1 : e = 1
    · rw [if_pos he1]
    · rw [if_neg he1]
      by_cases he2 : e = 2
      · rw [if_pos he2]
        by_cases hss : sk.cwnd < sk.ssthresh
        · rw [if_pos hss]
          show TCP_MSS ≤ (sk.cwnd + TCP_MSS) % U32
          rw [Nat.mod_eq_of_lt (by simp only [TCP_MSS, U32]; omega)]
          simp only [TCP_MSS]
          omega
        · rw [if_neg hss]
          show TCP_MSS ≤ (sk.cwnd + TCP_MSS * TCP_MSS / sk.cwnd) % U32
          have hd : TCP_MSS * TCP_MSS / sk.cwnd ≤ TCP_MSS * TCP_MSS :=
            Nat.div_le_self _ _
          rw [Nat.mod_eq_of_lt (by simp only [TCP_MSS, U32] at hd ⊢; omega)]
          exact le_trans h1 (Nat.le_add_right _ _)
      · rw [if_neg he2]
        exact h1

/-- The new-ACK event keeps `cwnd` within the engine-invariant range
when `ssthresh` still has its initial value. -/
lemma cwnd_event2_bounds (sk : tcp_sock)
    (h1 : TCP_MSS ≤ sk.cwnd) (h2 : sk.cwnd ≤ 2131632)
    (h3 : sk.ssthresh = INIT_SSTHRESH) :
    TCP_MSS ≤ (tcp_cwnd_event sk 2).cwnd ∧
    (tcp_cwnd_event sk 2).cwnd ≤ 2131632 := by
  by_cases hss : sk.cwnd < sk.ssthresh
  · have he : tcp_cwnd_event sk 2 =
        { sk with cwnd := (sk.cwnd + TCP_MSS) % U32 } := by
      simp [tcp_cwnd_event, hss]
    rw [he]
    show TCP_MSS ≤ (sk.cwnd + TCP_MSS) % U32 ∧
      (sk.cwnd + TCP_MSS) % U32 ≤ 2131632
    rw [h3] at hss
    simp only [INIT_SSTHRESH] at hss
    rw [Nat.mod_eq_of_lt (by simp only [TCP_MSS, U32]; omega)]
    simp only [TCP_MSS]
    omega
  · have he : tcp_cwnd_event sk 2 =
        { sk with cwnd := (sk.cwnd + TCP_MSS * TCP_MSS / sk.cwnd) % U32 } := by
      simp [tcp_cwnd_event, hss]
    rw [he]
    show TCP_MSS ≤ (sk.cwnd + TCP_MSS * TCP_MSS / sk.cwnd) % U32 ∧
      (sk.cwnd + TCP_MSS * TCP_MSS / sk.cwnd) % U32 ≤ 2131632
    push_neg at hss
    rw [h3] at hss
    simp only [INIT_SSTHRESH] at hss
    by_cases hbig : 2131600 < sk.cwnd
    · have hq : TCP_MSS * TCP_MSS / sk.cwnd = 0 :=
        Nat.div_eq_of_lt (by simp only [TCP_MSS]; omega)
      rw [hq, Nat.add_zero,
          Nat.mod_eq_of_lt (by simp only [U32]; omega)]
      exact ⟨h1, h2⟩
    · push_neg at hbig
      have hq : TCP_MSS * TCP_MSS / sk.cwnd ≤ 32 := by
        calc TCP_MSS * TCP_MSS / sk.cwnd
            ≤ TCP_MSS * TCP_MSS / 65535 :=
              Nat.div_le_div_left hss (by omega)
          _ = 32 := by decide
      rw [Nat.mod_eq_of_lt (by simp only [U32]; omega)]
      exact ⟨le_trans h1 (Nat.le_add_right _ _), by omega⟩

/-- One engine event preserves the congestion-window invariant. -/
lemma step_CwndInv (sk : tcp_sock) (op : Op) (h : CwndInv sk) :
    CwndInv (step sk op) := by
  obtain ⟨h1, h2, h3⟩ := h
  cases op with
  | timeout =>
    obtain ⟨_, _, f3, f4, _, _⟩ := retransmit_timer_frame sk
    exact ⟨by simpa [step, f3] using h1, by simpa [step, f3] using h2,
           by simpa [step, f4] using h3⟩
  | xmit =>
    obtain ⟨_, f2, f3, _, _, _⟩ := writeLoop_frame MAX_SEGMENTS sk.cwnd sk
    exact ⟨by simpa [step, tcp_write_xmit, f2] using h1,
           by simpa [step, tcp_write_xmit, f2] using h2,
           by simpa [step, tcp_write_xmit, f3] using h3⟩
  | ack a w =>
    by_cases hlt : sk.snd_una < a
    · simp only [step, tcp_ack_received, if_pos hlt]
      obtain ⟨u1, u2, u3, u4, u5, u6, u7, u8, u9⟩ :=
        update_rtt_frame { sk with rcv_wnd := w % 65536 } 100
      set sk2 := if ({ sk with rcv_wnd := w % 65536 } : tcp_sock).in_recovery
          then ({ sk with rcv_wnd := w % 65536 } : tcp_sock)
          else tcp_update_rtt { sk with rcv_wnd := w % 65536 } 100 with hsk2
      have g1 : sk2.cwnd = sk.cwnd := by
        rw [hsk2]; split_ifs <;> simp [u6]
      have g2 : sk2.ssthresh = sk.ssthresh := by
        rw [hsk2]; split_ifs <;> simp [u7]
      set sk3 := tcp_clean_rtx_queue sk2 a with hsk3
      have g3 : sk3.cwnd = sk.cwnd := by simp [hsk3, tcp_clean_rtx_queue, g1]
      have g4 : sk3.ssthresh = sk.ssthresh := by
        simp [hsk3, tcp_clean_rtx_queue, g2]
      obtain ⟨hc1, hc2⟩ := cwnd_event2_bounds sk3
        (by rw [g3]; exact h1) (by rw [g3]; exact h2) (by rw [g4]; exact h3)
      have g5 : (tcp_cwnd_event sk3 2).ssthresh = sk.ssthresh := by
        rw [(cwnd_event2_frame sk3).2.2.2.2.2.2, g4]
      refine ⟨?_, ?_, ?_⟩ <;> split_ifs <;>
        simp_all [tcp_leave_recovery]
    · simp only [step, ack_received_of_not_gt sk a w hlt]
      exact ⟨h1, h2, h3⟩

/-- The congestion-window invariant holds in every state reachable by
engine events. -/
lemma runFrom_CwndInv (ops : List Op) (sk : tcp_sock) (h : CwndInv sk) :
    CwndInv (runFrom sk ops) := by
  induction ops generalizing sk with
  | nil => simpa [runFrom] using h
  | cons op rest ih =>
    simpa [runFrom] using ih (step sk op) (step_CwndInv sk op h)

/-- C8 (amended): `cwnd` is genuinely floored at one MSS — any
congestion event applied to a state whose `cwnd` is in the engine's
invariant range yields `cwnd >= MSS` — and along every engine
execution both `cwnd >= MSS` and `ssthresh >= MSS` hold (`ssthresh`
keeps its initial 65535 because the engine never raises the
duplicate-ACK or timeout events).  `ssthresh` itself is not floored:
see the counterexample, where a second timeout event drives it to
730. -/
theorem cwnd_floor_and_reachable_bounds :
    (∀ (sk : tcp_sock) (e : Nat), TCP_MSS ≤ sk.cwnd → sk.cwnd ≤ 2131632 →
      TCP_MSS ≤ (tcp_cwnd_event sk e).cwnd) ∧
    (∀ ops : List Op, TCP_MSS ≤ (run ops).cwnd ∧
      TCP_MSS ≤ (run ops).ssthresh) := by
  constructor
  · exact cwnd_event_cwnd_floor
  · intro ops
    have h0 : CwndInv tcp_sock_create := by
      refine ⟨?_, ?_, rfl⟩ <;> decide
    obtain ⟨k1, k2, k3⟩ := runFrom_CwndInv ops tcp_sock_create h0
    simp only [run]
    refine ⟨k1, ?_⟩
    rw [k3]
    decide

/-- Witness for the amended C8 at a concrete event and a concrete
execution. -/
theorem cwnd_floor_and_reachable_bounds_witness :
    (TCP_MSS ≤ tcp_sock_create.cwnd ∧ tcp_sock_create.cwnd ≤ 2131632 ∧
      TCP_MSS ≤ (tcp_cwnd_event tcp_sock_create 0).cwnd) ∧
    (TCP_MSS ≤ (run [Op.xmit, Op.ack 6000 65535]).cwnd ∧
      TCP_MSS ≤ (run [Op.xmit, Op.ack 6000 65535]).ssthresh) :=
  ⟨⟨by decide, by decide,
    cwnd_floor_and_reachable_bounds.1 tcp_sock_create 0 (by decide) (by decide)⟩,
   cwnd_floor_and_reachable_bounds.2 [Op.xmit, Op.ack 6000 65535]⟩

/-! ## The reachable-state invariant (claims C3 and C6) -/

/-- `tcp_retransmit_skb` either returns the segment untouched or marks
it retransmitted with one more retry. -/
lemma retransmit_skb_snd_cases (sk : tcp_sock) (s : tcp_segment) :
    (tcp_retransmit_skb sk s).2 = s ∨
    (tcp_retransmit_skb sk s).2 =
      { s with retrans := true, retries := s.retries + 1 } := by
  unfold tcp_retransmit_skb
  split
  · exact Or.inl rfl
  · exact Or.inr rfl

/-- Every segment coming out of the timer's loop descends from a
segment of the input list with the same `seq` and `len`; its retry
count is nonzero only if the original's was, or the original was
eligible (`seq < snd_una`). -/
lemma timerLoop_segs (sk : tcp_sock) (l : List tcp_segment) :
    ∀ g' ∈ (timerLoop sk l).2, ∃ g ∈ l, g'.seq = g.seq ∧ g'.len = g.len ∧
      (g'.retries ≠ 0 → g.retries ≠ 0 ∨ g.seq < sk.snd_una) := by
  induction l generalizing sk with
  | nil => intro g' hg'; simp [timerLoop] at hg'
  | cons s rest ih =>
    intro g' hg'
    by_cases hs : s.seq < sk.snd_una
    · simp only [timerLoop, if_pos hs] at hg'
      rcases List.mem_cons.mp hg' with hhd | hmem
      · rcases retransmit_skb_snd_cases sk s with hc | hc <;>
          rw [hc] at hhd <;>
          exact ⟨s, List.mem_cons_self _ _, by rw [hhd], by rw [hhd],
                 fun _ => Or.inr hs⟩
      · have huna : (tcp_retransmit_skb sk s).1.snd_una = sk.snd_una :=
          (retransmit_skb_fst_frame sk s).1
        obtain ⟨g, hgmem, h1, h2, h3⟩ := ih (tcp_retransmit_skb sk s).1 g' hmem
        rw [huna] at h3
        exact ⟨g, List.mem_cons_of_mem _ hgmem, h1, h2, h3⟩
    · simp only [timerLoop, if_neg hs] at hg'
      rcases List.mem_cons.mp hg' with hhd | hmem
      · exact ⟨s, List.mem_cons_self _ _, by rw [hhd], by rw [hhd],
               fun hr => Or.inl (by rw [hhd] at hr; exact hr)⟩
      · obtain ⟨g, hgmem, h1, h2, h3⟩ := ih sk g' hmem
        exact ⟨g, List.mem_cons_of_mem _ hgmem, h1, h2, h3⟩

/-- The retransmission timer rewrites the segment list with the
output of its loop (run from the possibly recovery-entered state). -/
lemma retransmit_timer_segments (sk : tcp_sock) :
    (tcp_retransmit_timer sk).segments =
      (timerLoop (if sk.in_recovery then sk else tcp_enter_recovery sk)
        sk.segments).2 := by
  by_cases hr : sk.in_recovery <;>
    simp [tcp_retransmit_timer, hr, tcp_enter_recovery]

/-- The timer applies the RTO backoff once per eligible segment. -/
lemma retransmit_timer_rto (sk : tcp_sock) :
    (tcp_retransmit_timer sk).rto =
      backoffRto^[(sk.segments.filter (fun g =>
        decide (g.seq < sk.snd_una) &&
        decide (g.retries < MAX_RETRIES))).length] sk.rto := by
  by_cases hr : sk.in_recovery <;>
    simp [tcp_retransmit_timer, hr, tcp_enter_recovery, timerLoop_fst_rto]

/-- The transmit scheduler's loop only grows `snd_nxt` (given the
no-overflow bound) and appends fresh segments lying between the old
and the new `snd_nxt`. -/
lemma writeLoop_inv (n : Nat) (avail : Nat) (sk : tcp_sock)
    (h : sk.snd_nxt + n * TCP_MSS < U32) :
    sk.snd_nxt ≤ (writeLoop n avail sk).snd_nxt ∧
    (writeLoop n avail sk).snd_nxt < U32 ∧
    ∀ g' ∈ (writeLoop n avail sk).segments,
      g' ∈ sk.segments ∨
      (g'.retries = 0 ∧ sk.snd_nxt ≤ g'.seq ∧
        g'.seq + g'.len ≤ (writeLoop n avail sk).snd_nxt) := by
  induction n generalizing avail sk with
  | zero =>
    refine ⟨le_refl _, ?_, fun g' hg' => Or.inl hg'⟩
    simpa using h
  | succ m ih =>
    by_cases ha : TCP_MSS ≤ avail
    · have hstep : sk.snd_nxt + TCP_MSS < U32 := by
        simp only [TCP_MSS, U32] at h ⊢
        omega
      have hmod : (sk.snd_nxt + TCP_MSS) % U32 = sk.snd_nxt + TCP_MSS :=
        Nat.mod_eq_of_lt hstep
      set R := ({ sk with
          snd_nxt := (sk.snd_nxt + TCP_MSS) % U32
          packets_sent := (sk.packets_sent + 1) % U64
          bytes_sent := (sk.bytes_sent + TCP_MSS) % U64
          segments := sk.segments ++
            [{ seq := sk.snd_nxt, ack := sk.rcv_nxt,
               window := sk.rcv_wnd % 65536, flags := TCP_ACK_FLAG,
               mss := TCP_MSS, len := TCP_MSS,
               retrans := false, retries := 0 }] } : tcp_sock) with hRdef
      have hrw : writeLoop (m + 1) avail sk =
          writeLoop m (avail - TCP_MSS) R := by
        rw [hRdef]
        simp [writeLoop, ha, tcp_transmit_skb]
      have hRnxt : R.snd_nxt = sk.snd_nxt + TCP_MSS := by
        rw [hRdef]
        exact hmod
      have hRsegs : R.segments = sk.segments ++
          [{ seq := sk.snd_nxt, ack := sk.rcv_nxt,
             window := sk.rcv_wnd % 65536, flags := TCP_ACK_FLAG,
             mss := TCP_MSS, len := TCP_MSS,
             retrans := false, retries := 0 }] := by
        rw [hRdef]
      have hnext : R.snd_nxt + m * TCP_MSS < U32 := by
        rw [hRnxt]
        simp only [TCP_MSS, U32] at h ⊢
        omega
      obtain ⟨j1, j2, j3⟩ := ih (avail - TCP_MSS) R hnext
      rw [hRnxt] at j1
      rw [hrw]
      refine ⟨le_trans (Nat.le_add_right _ _) j1, j2, ?_⟩
      intro g' hg'
      rcases j3 g' hg' with hin | ⟨jr, js, je⟩
      · rw [hRsegs] at hin
        simp only [List.mem_append, List.mem_singleton] at hin
        rcases hin with hold | hnew
        · exact Or.inl hold
        · refine Or.inr ⟨?_, ?_, ?_⟩
          · rw [hnew]
          · rw [hnew]
          · rw [hnew]
            exact j1
      · rw [hRnxt] at js
        exact Or.inr ⟨jr, le_trans (Nat.le_add_right _ _) js, je⟩
    · have heq : writeLoop (m + 1) avail sk = sk := by
        simp [writeLoop, ha]
      rw [heq]
      refine ⟨le_refl _, ?_, fun g' hg' => Or.inl hg'⟩
      simp only [TCP_MSS, U32] at h ⊢
      omega

/-- The invariant maintained by every valid engine execution: sequence
bookkeeping is consistent, the RTO stays in its band, every tracked
segment lies below `snd_nxt`, retransmitted segments exist only during
recovery and end at or below the recovery point, and no segment
straddles the recovery point. -/
def Inv (sk : tcp_sock) : Prop :=
  sk.snd_una ≤ sk.snd_nxt ∧
  sk.snd_una < U32 ∧
  sk.snd_nxt < U32 ∧
  RTO_MIN ≤ sk.rto ∧
  sk.rto ≤ RTO_MAX ∧
  (∀ g ∈ sk.segments, g.seq + g.len ≤ sk.snd_nxt) ∧
  (sk.in_recovery = true →
    sk.snd_una ≤ sk.recover ∧ sk.recover ≤ sk.snd_nxt ∧
    (∀ g ∈ sk.segments, g.seq < sk.recover → g.seq + g.len ≤ sk.recover) ∧
    (∀ g ∈ sk.segments, g.retries ≠ 0 → g.seq + g.len ≤ sk.recover)) ∧
  (sk.in_recovery = false → ∀ g ∈ sk.segments, g.retries = 0)

/-- The freshly created connection satisfies the invariant. -/
lemma inv_init : Inv tcp_sock_create := by
  unfold Inv
  decide

/-- The retransmission timer preserves the invariant. -/
lemma inv_timeout (sk : tcp_sock) (h : Inv sk) :
    Inv (tcp_retransmit_timer sk) := by
  obtain ⟨i1, i2, i3, i4, i5, i6, i7, i8⟩ := h
  obtain ⟨f1, f2, _, _, f5, f6⟩ := retransmit_timer_frame sk
  have hsegs := retransmit_timer_segments sk
  have hsk1una : (if sk.in_recovery then sk else tcp_enter_recovery sk).snd_una
      = sk.snd_una := by
    split <;> simp [tcp_enter_recovery]
  have hdesc : ∀ g' ∈ (tcp_retransmit_timer sk).segments,
      ∃ g ∈ sk.segments, g'.seq = g.seq ∧ g'.len = g.len ∧
        (g'.retries ≠ 0 → g.retries ≠ 0 ∨ g.seq < sk.snd_una) := by
    intro g' hg'
    rw [hsegs] at hg'
    obtain ⟨g, hgmem, e1, e2, e3⟩ :=
      timerLoop_segs _ sk.segments g' hg'
    rw [hsk1una] at e3
    exact ⟨g, hgmem, e1, e2, e3⟩
  have hrto := retransmit_timer_rto sk
  obtain ⟨b1, b2⟩ := backoffRto_iter_band
    ((sk.segments.filter (fun g => decide (g.seq < sk.snd_una) &&
      decide (g.retries < MAX_RETRIES))).length) sk.rto i4 i5
  refine ⟨?_, ?_, ?_, ?_, ?_, ?_, ?_, ?_⟩
  · rw [f1, f2]; exact i1
  · rw [f1]; exact i2
  · rw [f2]; exact i3
  · rw [hrto]; exact b1
  · rw [hrto]; exact b2
  · intro g' hg'
    obtain ⟨g, hgmem, e1, e2, _⟩ := hdesc g' hg'
    rw [f2, e1, e2]
    exact i6 g hgmem
  · intro _
    by_cases hr : sk.in_recovery
    · obtain ⟨c1, c2, c3, c4⟩ := i7 hr
      have hrec : (tcp_retransmit_timer sk).recover = sk.recover := by
        rw [f6, if_pos hr]
      refine ⟨?_, ?_, ?_, ?_⟩
      · rw [f1, hrec]; exact c1
      · rw [f2, hrec]; exact c2
      · intro g' hg' hlt
        obtain ⟨g, hgmem, e1, e2, _⟩ := hdesc g' hg'
        rw [hrec] at hlt ⊢
        rw [e1, e2]
        rw [e1] at hlt
        exact c3 g hgmem hlt
      · intro g' hg' hne
        obtain ⟨g, hgmem, e1, e2, e3⟩ := hdesc g' hg'
        rw [hrec, e1, e2]
        rcases e3 hne with hgr | hglt
        · exact c4 g hgmem hgr
        · exact c3 g hgmem (lt_of_lt_of_le hglt c1)
    · have hrec : (tcp_retransmit_timer sk).recover = sk.snd_nxt := by
        rw [f6, if_neg hr]
      refine ⟨?_, ?_, ?_, ?_⟩
      · rw [f1, hrec]; exact i1
      · rw [f2, hrec]
      · intro g' hg' _
        obtain ⟨g, hgmem, e1, e2, _⟩ := hdesc g' hg'
        rw [hrec, e1, e2]
        exact i6 g hgmem
      · intro g' hg' _
        obtain ⟨g, hgmem, e1, e2, _⟩ := hdesc g' hg'
        rw [hrec, e1, e2]
        exact i6 g hgmem
  · intro habs
    rw [f5] at habs
    cases habs

/-- The transmit scheduler preserves the invariant, given that
`snd_nxt` cannot overflow in the call. -/
lemma inv_xmit (sk : tcp_sock) (h : Inv sk)
    (hg : sk.snd_nxt + MAX_SEGMENTS * TCP_MSS < U32) :
    Inv (tcp_write_xmit sk) := by
  obtain ⟨i1, i2, i3, i4, i5, i6, i7, i8⟩ := h
  obtain ⟨f1, _, _, f4, f5, f6⟩ := writeLoop_frame MAX_SEGMENTS sk.cwnd sk
  obtain ⟨j1, j2, j3⟩ := writeLoop_inv MAX_SEGMENTS sk.cwnd sk hg
  unfold tcp_write_xmit
  refine ⟨?_, ?_, ?_, ?_, ?_, ?_, ?_, ?_⟩
  · rw [f1]; exact le_trans i1 j1
  · rw [f1]; exact i2
  · exact j2
  · rw [f6]; exact i4
  · rw [f6]; exact i5
  · intro g' hg'
    rcases j3 g' hg' with hold | ⟨_, _, je⟩
    · exact le_trans (i6 g' hold) j1
    · exact je
  · intro hrec
    rw [f4] at hrec
    obtain ⟨c1, c2, c3, c4⟩ := i7 hrec
    refine ⟨?_, ?_, ?_, ?_⟩
    · rw [f1, f5]; exact c1
    · rw [f5]; exact le_trans c2 j1
    · intro g' hg' hlt
      rw [f5] at hlt ⊢
      rcases j3 g' hg' with hold | ⟨_, js, _⟩
      · exact c3 g' hold hlt
      · exact absurd hlt (not_lt.mpr (le_trans c2 js))
    · intro g' hg' hne
      rw [f5]
      rcases j3 g' hg' with hold | ⟨jr, _, _⟩
      · exact c4 g' hold hne
      · exact absurd jr hne
  · intro hrec
    rw [f4] at hrec
    intro g' hg'
    rcases j3 g' hg' with hold | ⟨jr, _, _⟩
    · exact i8 hrec g' hold
    · exact jr

/-- ACK processing preserves the invariant when the ACK number does not
exceed `snd_nxt` and fits in 32 bits. -/
lemma inv_ack (sk : tcp_sock) (a w : Nat) (h : Inv sk)
    (ha : a ≤ sk.snd_nxt) (ha32 : a < U32) :
    Inv (tcp_ack_received sk a w) := by
  obtain ⟨i1, i2, i3, i4, i5, i6, i7, i8⟩ := h
  by_cases hlt : sk.snd_una < a
  · simp only [tcp_ack_received, if_pos hlt]
    obtain ⟨u1, u2, u3, u4, u5, _, _, u8, u9⟩ :=
      update_rtt_frame { sk with rcv_wnd := w % 65536 } 100
    set sk2 := if ({ sk with rcv_wnd := w % 65536 } : tcp_sock).in_recovery
        then ({ sk with rcv_wnd := w % 65536 } : tcp_sock)
        else tcp_update_rtt { sk with rcv_wnd := w % 65536 } 100 with hsk2
    have e2una : sk2.snd_una = sk.snd_una := by
      rw [hsk2]; split <;> simp [u1]
    have e2nxt : sk2.snd_nxt = sk.snd_nxt := by
      rw [hsk2]; split <;> simp [u2]
    have e2segs : sk2.segments = sk.segments := by
      rw [hsk2]; split <;> simp [u3]
    have e2rec : sk2.in_recovery = sk.in_recovery := by
      rw [hsk2]; split <;> simp [u4]
    have e2recover : sk2.recover = sk.recover := by
      rw [hsk2]; split <;> simp [u5]
    have e2rto : RTO_MIN ≤ sk2.rto ∧ sk2.rto ≤ RTO_MAX := by
      rw [hsk2]
      split
      · exact ⟨i4, i5⟩
      · exact ⟨u8, u9⟩
    set sk3 := tcp_clean_rtx_queue sk2 a with hsk3
    have e3una : sk3.snd_una = sk.snd_una := by
      simp [hsk3, tcp_clean_rtx_queue, e2una]
    have e3nxt : sk3.snd_nxt = sk.snd_nxt := by
      simp [hsk3, tcp_clean_rtx_queue, e2nxt]
    have e3segs : sk3.segments = cleanSegs a sk.segments := by
      simp [hsk3, tcp_clean_rtx_queue, e2segs]
    have e3rec : sk3.in_recovery = sk.in_recovery := by
      simp [hsk3, tcp_clean_rtx_queue, e2rec]
    have e3recover : sk3.recover = sk.recover := by
      simp [hsk3, tcp_clean_rtx_queue, e2recover]
    have e3rto : RTO_MIN ≤ sk3.rto ∧ sk3.rto ≤ RTO_MAX := by
      have : sk3.rto = sk2.rto := by simp [hsk3, tcp_clean_rtx_queue]
      rw [this]; exact e2rto
    obtain ⟨k1, k2, k3, k4, k5, k6, _⟩ := cwnd_event2_frame sk3
    set sk4 := tcp_cwnd_event sk3 2 with hsk4
    set sk5 := if sk4.in_recovery ∧ sk4.recover ≤ a
        then tcp_leave_recovery sk4 else sk4 with hsk5
    have e5una : sk5.snd_una = sk.snd_una := by
      rw [hsk5]; split <;> simp [tcp_leave_recovery, k1, e3una]
    have e5nxt : sk5.snd_nxt = sk.snd_nxt := by
      rw [hsk5]; split <;> simp [tcp_leave_recovery, k2, e3nxt]
    have e5segs : sk5.segments = cleanSegs a sk.segments := by
      rw [hsk5]; split <;> simp [tcp_leave_recovery, k3, e3segs]
    have e5recover : sk5.recover = sk.recover := by
      rw [hsk5]; split <;> simp [tcp_leave_recovery, k5, e3recover]
    have e5rto : RTO_MIN ≤ sk5.rto ∧ sk5.rto ≤ RTO_MAX := by
      have : sk5.rto = sk3.rto := by
        rw [hsk5]; split <;> simp [tcp_leave_recovery, k6]
      rw [this]; exact e3rto
    have hsub : ∀ g ∈ cleanSegs a sk.segments,
        g ∈ sk.segments ∧ ¬ (g.seq + g.len) % U32 ≤ a :=
      fun g hgmem => mem_cleanSegs hgmem
    refine ⟨?_, ?_, ?_, ?_, ?_, ?_, ?_, ?_⟩
    · show a ≤ _
      simp only [e5nxt]
      exact ha
    · exact ha32
    · show sk5.snd_nxt < U32
      rw [e5nxt]; exact i3
    · show RTO_MIN ≤ sk5.rto
      exact e5rto.1
    · show sk5.rto ≤ RTO_MAX
      exact e5rto.2
    · show ∀ g ∈ sk5.segments, g.seq + g.len ≤ sk5.snd_nxt
      rw [e5segs, e5nxt]
      intro g hgmem
      exact i6 g (hsub g hgmem).1
    · show sk5.in_recovery = true → _
      intro hrec5
      have hcase : sk.in_recovery = true ∧ ¬ (sk4.in_recovery ∧ sk4.recover ≤ a) := by
        by_cases hlv : sk4.in_recovery ∧ sk4.recover ≤ a
        · rw [hsk5, if_pos hlv] at hrec5
          simp [tcp_leave_recovery] at hrec5
        · constructor
          · have : sk5.in_recovery = sk4.in_recovery := by
              rw [hsk5, if_neg hlv]
            rw [this, k4, e3rec] at hrec5
            exact hrec5
          · exact hlv
      obtain ⟨hr, hnolv⟩ := hcase
      have hnoack : ¬ sk.recover ≤ a := by
        intro hle
        exact hnolv ⟨by rw [k4, e3rec]; exact hr, by rw [k5, e3recover]; exact hle⟩
      obtain ⟨c1, c2, c3, c4⟩ := i7 hr
      rw [e5recover]
      refine ⟨?_, ?_, ?_, ?_⟩
      · show a ≤ sk.recover
        omega
      · rw [e5nxt]; exact c2
      · rw [e5segs]
        intro g hgmem hglt
        exact c3 g (hsub g hgmem).1 hglt
      · rw [e5segs]
        intro g hgmem hgne
        exact c4 g (hsub g hgmem).1 hgne
    · show sk5.in_recovery = false → _
      intro hrec5
      rw [e5segs]
      intro g hgmem
      obtain ⟨hgold, hgnc⟩ := hsub g hgmem
      by_cases hr : sk.in_recovery
      · obtain ⟨c1, c2, c3, c4⟩ := i7 hr
        by_contra hgne
        have hend : g.seq + g.len ≤ sk.recover := c4 g hgold hgne
        have hlv : sk4.in_recovery ∧ sk4.recover ≤ a := by
          by_cases hlv : sk4.in_recovery ∧ sk4.recover ≤ a
          · exact hlv
          · have : sk5.in_recovery = sk4.in_recovery := by
              rw [hsk5, if_neg hlv]
            rw [this, k4, e3rec] at hrec5
            rw [hrec5] at hr
            cases hr
        have hra : sk.recover ≤ a := by
          have := hlv.2
          rw [k5, e3recover] at this
          exact this
        have hmod : (g.seq + g.len) % U32 = g.seq + g.len :=
          Nat.mod_eq_of_lt (lt_of_le_of_lt (i6 g hgold) i3)
        rw [hmod] at hgnc
        omega
      · exact i8 (by simpa using hr) g hgold
  · rw [ack_received_of_not_gt sk a w hlt]
    exact ⟨i1, i2, i3, i4, i5, i6, i7, i8⟩

/-- Any valid engine event preserves the invariant. -/
lemma inv_step (sk : tcp_sock) (op : Op) (h : Inv sk)
    (hok : okOp sk op = true) : Inv (step sk op) := by
  cases op with
  | ack a w =>
    simp only [okOp, Bool.and_eq_true, decide_eq_true_eq] at hok
    exact inv_ack sk a w h hok.1 hok.2
  | timeout => exact inv_timeout sk h
  | xmit =>
    simp only [okOp, decide_eq_true_eq] at hok
    exact inv_xmit sk h hok

/-- The invariant holds after any valid event sequence. -/
lemma validFrom_inv (ops : List Op) (sk : tcp_sock) (h : Inv sk)
    (hv : validFrom sk ops = true) : Inv (runFrom sk ops) := by
  induction ops generalizing sk with
  | nil => simpa [runFrom] using h
  | cons op rest ih =>
    simp only [validFrom, Bool.and_eq_true] at hv
    simpa [runFrom] using ih (step sk op) (inv_step sk op h hv.1) hv.2

/-! ## C3: the reachable-state invariants -/

/-- C3 counterexample: the invariant `snd_una <= snd_nxt` does not
survive arbitrary ACK numbers — one engine operation from the initial
state (an ACK one byte above `snd_nxt`) produces a reachable state with
`snd_nxt < snd_una`. -/
theorem wild_ack_breaks_snd_una_le_snd_nxt :
    (run [Op.ack 1001 65535]).snd_nxt <
      (run [Op.ack 1001 65535]).snd_una := by
  decide

/-- C3 (amended): along every execution in which each `on_ack` carries
an ACK number at most the current `snd_nxt` (and fitting `uint32_t`)
and `snd_nxt` cannot overflow during a `write_xmit` call, every
reachable state satisfies both `snd_una <= snd_nxt` and
`RTO_MIN <= rto <= RTO_MAX`.  Without the ACK restriction the first
invariant is false (see the counterexample); the RTO band itself never
needed it. -/
theorem reachable_snd_una_le_snd_nxt_and_rto_band (ops : List Op)
    (h : validFrom tcp_sock_create ops = true) :
    (run ops).snd_una ≤ (run ops).snd_nxt ∧
    RTO_MIN ≤ (run ops).rto ∧ (run ops).rto ≤ RTO_MAX := by
  obtain ⟨i1, _, _, i4, i5, _, _, _⟩ :=
    validFrom_inv ops tcp_sock_create inv_init h
  exact ⟨i1, i4, i5⟩

/-- Witness for the amended C3 on a concrete valid execution
(transmit, timeout, then an in-window ACK). -/
theorem reachable_snd_una_le_snd_nxt_and_rto_band_witness :
    validFrom tcp_sock_create [Op.xmit, Op.timeout, Op.ack 5000 65535] = true ∧
    ((run [Op.xmit, Op.timeout, Op.ack 5000 65535]).snd_una ≤
       (run [Op.xmit, Op.timeout, Op.ack 5000 65535]).snd_nxt ∧
     RTO_MIN ≤ (run [Op.xmit, Op.timeout, Op.ack 5000 65535]).rto ∧
     (run [Op.xmit, Op.timeout, Op.ack 5000 65535]).rto ≤ RTO_MAX) :=
  ⟨by decide,
   reachable_snd_una_le_snd_nxt_and_rto_band
     [Op.xmit, Op.timeout, Op.ack 5000 65535] (by decide)⟩

/-! ## C6: Karn's rule -/

/-- C6 counterexample: a concrete execution in which an RTT sample is
taken from an ACK covering a retransmitted segment.  After
`[xmit, ack 20000, timeout, xmit, timeout, ack 20001]` the connection
is out of recovery yet still tracks segment 19980 with `retries = 1`
covered by ACK 21440; processing that ACK calls the estimator
(`rttvar` changes), violating Karn's rule.  (The trace needs the
out-of-window ACK 20000, which the code accepts.) -/
theorem sample_on_ack_covering_retransmitted :
    (run [Op.xmit, Op.ack 20000 65535, Op.timeout, Op.xmit, Op.timeout,
          Op.ack 20001 65535]).in_recovery = false ∧
    (run [Op.xmit, Op.ack 20000 65535, Op.timeout, Op.xmit, Op.timeout,
          Op.ack 20001 65535]).snd_una < 21440 ∧
    ((run [Op.xmit, Op.ack 20000 65535, Op.timeout, Op.xmit, Op.timeout,
          Op.ack 20001 65535]).segments.any (fun g =>
       decide (0 < g.retries) &&
       decide ((g.seq + g.len) % U32 ≤ 21440))) = true ∧
    (tcp_ack_received
        (run [Op.xmit, Op.ack 20000 65535, Op.timeout, Op.xmit, Op.timeout,
              Op.ack 20001 65535]) 21440 65535).rttvar ≠
      (run [Op.xmit, Op.ack 20000 65535, Op.timeout, Op.xmit, Op.timeout,
            Op.ack 20001 65535]).rttvar := by
  decide

/-- C6 (amended): in every execution whose ACK numbers stay at or below
the current `snd_nxt` (`uint32_t`-sized, no `snd_nxt` overflow), an RTT
sample is never taken from an ACK that covers a retransmitted segment:
the estimator runs only when the connection is out of recovery, and in
every such reachable state every tracked segment — in particular every
segment a subsequent ACK could cover — has `retransmit_count = 0`. -/
theorem karn_no_sample_covers_retransmitted (ops : List Op) (a : Nat)
    (h : validFrom tcp_sock_create ops = true)
    (hs : (run ops).in_recovery = false) :
    ∀ g ∈ (run ops).segments, (g.seq + g.len) % U32 ≤ a →
      g.retries = 0 := by
  obtain ⟨_, _, _, _, _, _, _, i8⟩ :=
    validFrom_inv ops tcp_sock_create inv_init h
  exact fun g hg _ => i8 hs g hg

/-- Witness for the amended C6 on a concrete valid execution with a
partially covering in-window ACK. -/
theorem karn_no_sample_covers_retransmitted_witness :
    validFrom tcp_sock_create [Op.xmit, Op.ack 2460 65535] = true ∧
    (run [Op.xmit, Op.ack 2460 65535]).in_recovery = false ∧
    (∀ g ∈ (run [Op.xmit, Op.ack 2460 65535]).segments,
      (g.seq + g.len) % U32 ≤ 2460 → g.retries = 0) :=
  ⟨by decide, by decide,
   karn_no_sample_covers_retransmitted [Op.xmit, Op.ack 2460 65535] 2460
     (by decide) (by decide)⟩

end TcpOutput
